import Mathlib

/-!
# Verification of the `ev_loop` event-dispatcher kernel

Shallow embedding of the core data structures and routing logic of
`include/ev_loop/ev.hpp`, together with proofs and refutations of the
specification claims about them.

Conventions of the embedding:
* C++ machine indices (`std::size_t head_, tail_`) become `Nat`; the indices
  only grow and their difference stays bounded by the capacity, so `Nat`
  subtraction coincides with the wrapping C++ subtraction on every reachable
  state.
* `tail_ & mask_` with a power-of-two capacity `C` is `tail % C`.
* A queue's element type `α` stands for the C++ `TaggedEvent` envelope (or the
  raw payload where the envelope is irrelevant); `std::array<T, C>` buffers
  become lists of length `C` of default-constructed elements (`Inhabited α`).
* Functions that are `void` in C++ return just the successor state; functions
  returning `bool` or a pointer return the pair of that result and the state.
* Cross-thread operations are given their sequential (single-interleaving)
  semantics; atomics and mutexes collapse to plain state.
-/

namespace EvLoop

/-! ## `RingBuffer<T, Capacity>` (ev.hpp lines 335-376)

`head_` and `tail_` are free-running indices, `buffer_` is an array of
`Capacity` default-constructed elements, `mask_ = Capacity - 1`. -/

/-- State of `RingBuffer<T, C>`: the backing array, `head_` and `tail_`. -/
structure RingBuffer (α : Type) (C : Nat) where
  buffer : List α
  head : Nat
  tail : Nat
  deriving Repr, DecidableEq

/-- Model of `RingBuffer` as value-initialized by its C++ default constructor:
`C` default elements, `head_ = tail_ = 0`. -/
def RingBuffer.init (α : Type) [Inhabited α] (C : Nat) : RingBuffer α C :=
  ⟨List.replicate C default, 0, 0⟩

/-- Model of `size()`: `tail_ - head_` (wrap-free on reachable states). -/
def RingBuffer.size {α : Type} {C : Nat} (q : RingBuffer α C) : Nat :=
  q.tail - q.head

/-- Model of `empty()`: `head_ == tail_`. -/
def RingBuffer.isEmpty {α : Type} {C : Nat} (q : RingBuffer α C) : Bool :=
  q.head == q.tail

/-- The element stored in slot `i` of the backing array. -/
def RingBuffer.slotAt {α : Type} [Inhabited α] {C : Nat} (q : RingBuffer α C) (i : Nat) : α :=
  q.buffer.getD i default

/-- Model of `push(T&&)` / `push(const T&)`: reject when `size() >= Capacity`, otherwise
assign `buffer_[tail_++ & mask_]` and report success. -/
def RingBuffer.push {α : Type} {C : Nat} (q : RingBuffer α C) (v : α) :
    Bool × RingBuffer α C :=
  if C ≤ q.size then (false, q)
  else (true, { q with buffer := q.buffer.set (q.tail % C) v, tail := q.tail + 1 })

/-- Model of `alloc_slot()`: `nullptr` when full, otherwise the index `tail_ & mask_` of
the writable slot (the state is untouched). -/
def RingBuffer.allocSlot {α : Type} {C : Nat} (q : RingBuffer α C) : Option Nat :=
  if C ≤ q.size then none else some (q.tail % C)

/-- Model of `commit_push()`: `++tail_`. -/
def RingBuffer.commitPush {α : Type} {C : Nat} (q : RingBuffer α C) : RingBuffer α C :=
  { q with tail := q.tail + 1 }

/-- Model of `try_pop()`: `nullptr` when `head_ == tail_`, otherwise the element at
`buffer_[head_++ & mask_]`. -/
def RingBuffer.tryPop {α : Type} [Inhabited α] {C : Nat} (q : RingBuffer α C) :
    Option α × RingBuffer α C :=
  if q.head = q.tail then (none, q)
  else (some (q.slotAt (q.head % C)), { q with head := q.head + 1 })

/-! ## `SPSCQueue<T, Capacity>` (ev.hpp lines 490-552), sequential semantics

`head_`/`tail_` are atomics and `current_` is the consumer's scratch slot; the
`stop_` flag is independent. -/

/-- State of `SPSCQueue<T, C>`. -/
structure SPSCQueue (α : Type) (C : Nat) where
  buffer : List α
  current : α
  head : Nat
  tail : Nat
  stopFlag : Bool
  deriving Repr, DecidableEq

/-- Model of `SPSCQueue` default state. -/
def SPSCQueue.init (α : Type) [Inhabited α] (C : Nat) : SPSCQueue α C :=
  ⟨List.replicate C default, default, 0, 0, false⟩

/-- Model of `SPSCQueue::push(T)`: reject when `tail - head >= Capacity`, otherwise
write `buffer_[tail & mask_]` and publish `tail + 1`. -/
def SPSCQueue.push {α : Type} {C : Nat} (q : SPSCQueue α C) (v : α) :
    Bool × SPSCQueue α C :=
  if C ≤ q.tail - q.head then (false, q)
  else (true, { q with buffer := q.buffer.set (q.tail % C) v, tail := q.tail + 1 })

/-- Model of `SPSCQueue::try_pop()`: `nullptr` when `head == tail_`, otherwise move the
slot into `current_` and advance `head_`. -/
def SPSCQueue.tryPop {α : Type} [Inhabited α] {C : Nat} (q : SPSCQueue α C) :
    Option α × SPSCQueue α C :=
  if q.head = q.tail then (none, q)
  else
    let v := q.buffer.getD (q.head % C) default
    (some v, { q with current := v, head := q.head + 1 })

/-! ## `ThreadSafeRingBuffer<T, Capacity>` (ev.hpp lines 562-644), the MPSC
inbox, sequential semantics. The mutex collapses; `has_data_` is kept. -/

/-- State of `ThreadSafeRingBuffer<T, C>`. -/
structure MPSCQueue (α : Type) (C : Nat) where
  buffer : List α
  current : α
  head : Nat
  tail : Nat
  hasData : Bool
  stopFlag : Bool
  deriving Repr, DecidableEq

/-- Model of `ThreadSafeRingBuffer` default state. -/
def MPSCQueue.init (α : Type) [Inhabited α] (C : Nat) : MPSCQueue α C :=
  ⟨List.replicate C default, default, 0, 0, false, false⟩

/-- Model of `ThreadSafeRingBuffer::push(T)`: under the mutex, reject when
`tail_ - head_ >= Capacity`, otherwise write `buffer_[tail_++ & mask_]` and set
`has_data_`. -/
def MPSCQueue.push {α : Type} {C : Nat} (q : MPSCQueue α C) (v : α) :
    Bool × MPSCQueue α C :=
  if C ≤ q.tail - q.head then (false, q)
  else (true, { q with buffer := q.buffer.set (q.tail % C) v, tail := q.tail + 1,
                       hasData := true })

/-- Model of `ThreadSafeRingBuffer::try_pop()` (sequential): fast-exit on the
`has_data_` hint, otherwise pop one slot into `current_` and refresh
`has_data_`. -/
def MPSCQueue.tryPop {α : Type} [Inhabited α] {C : Nat} (q : MPSCQueue α C) :
    Option α × MPSCQueue α C :=
  if q.hasData = false then (none, q)
  else if q.head = q.tail then (none, { q with hasData := false })
  else
    let v := q.buffer.getD (q.head % C) default
    (some v, { q with current := v, head := q.head + 1,
                      hasData := !(decide (q.head + 1 = q.tail)) })

/-! ## `DualQueue<TaggedEventType>` (ev.hpp lines 651-811), sequential semantics

The loop's mailbox: an unsynchronized `RingBuffer` local side plus a
mutex-guarded `std::queue` remote side with the `has_remote_` hint.  The
condition variable, `waiting_` and `stop_` only matter to the blocking paths,
which involve other threads and are not modelled here. -/

/-- State of `DualQueue`: `local_queue_`, `remote_queue_` (front of the FIFO is
the list head) and `has_remote_`. -/
structure DualQueue (α : Type) (C : Nat) where
  localQueue : RingBuffer α C
  remoteQueue : List α
  hasRemote : Bool
  deriving Repr, DecidableEq

/-- Model of `DualQueue` default state. -/
def DualQueue.init (α : Type) [Inhabited α] (C : Nat) : DualQueue α C :=
  ⟨RingBuffer.init α C, [], false⟩

/-- The drain loop body shared by `drain_remote` / `wait_pop_any`:
`while (!remote_queue_.empty()) { local_queue_.push(std::move(front)); remote_queue_.pop(); }`.
`RingBuffer::push`'s result is discarded and the front is popped regardless. -/
def drainLoop {α : Type} {C : Nat} (rb : RingBuffer α C) : List α → RingBuffer α C
  | [] => rb
  | v :: rest => drainLoop (rb.push v).2 rest

/-- Model of `DualQueue::drain_remote()`: early-out on the `has_remote_` hint, otherwise
run the drain loop and clear `has_remote_`. -/
def DualQueue.drainRemote {α : Type} {C : Nat} (q : DualQueue α C) : DualQueue α C :=
  if q.hasRemote = false then q
  else { localQueue := drainLoop q.localQueue q.remoteQueue,
         remoteQueue := [], hasRemote := false }

/-- Model of `DualQueue::push_local_event(E&&)`: `alloc_slot`, and only when the slot is
non-null store the event and `commit_push`; `void` return, so an allocation
failure is invisible to the caller. -/
def DualQueue.pushLocalEvent {α : Type} {C : Nat} (q : DualQueue α C) (v : α) :
    DualQueue α C :=
  match q.localQueue.allocSlot with
  | none => q
  | some i =>
      { q with localQueue :=
          ({ q.localQueue with buffer := q.localQueue.buffer.set i v }).commitPush }

/-- Model of `DualQueue::push_remote_event(E&&)` / `push_remote`: enqueue on the shared
FIFO under the mutex, then set `has_remote_` (the notify touches no state). -/
def DualQueue.pushRemote {α : Type} {C : Nat} (q : DualQueue α C) (v : α) :
    DualQueue α C :=
  { q with remoteQueue := q.remoteQueue ++ [v], hasRemote := true }

/-- Model of `DualQueue::try_pop_local()`: pop from the local ring only. -/
def DualQueue.tryPopLocal {α : Type} [Inhabited α] {C : Nat} (q : DualQueue α C) :
    Option α × DualQueue α C :=
  let (r, lq) := q.localQueue.tryPop
  (r, { q with localQueue := lq })

/-- Model of `DualQueue::try_pop()`: local ring first; on empty, `drain_remote()` and pop
from the local ring again. -/
def DualQueue.tryPop {α : Type} [Inhabited α] {C : Nat} (q : DualQueue α C) :
    Option α × DualQueue α C :=
  match q.localQueue.tryPop with
  | (some v, lq) => (some v, { q with localQueue := lq })
  | (none, _) =>
      let q' := q.drainRemote
      let (r, lq) := q'.localQueue.tryPop
      (r, { q' with localQueue := lq })

/-- Model of `DualQueue::empty()`: `drain_remote()` first, then report whether the local
ring is empty — the observer mutates the mailbox. -/
def DualQueue.emptyCheck {α : Type} {C : Nat} (q : DualQueue α C) :
    Bool × DualQueue α C :=
  let q' := q.drainRemote
  (q'.localQueue.isEmpty, q')

/-! ## Compile-time topology (ev.hpp lines 382-480 and 1149-1254)

Event types become `Nat` identifiers.  A template argument of
`EventLoop<Receivers...>` (receiver or external emitter) becomes a `Decl`:
the optional `receives` / `emits` type lists and the optional `thread_mode`
member, with the same defaulting rules as `get_receives_t`, `get_emits_t`
and `get_thread_mode`. -/

/-- Model of `ThreadMode` (ev.hpp line 382). -/
inductive ThreadMode : Type
  | SameThread
  | OwnThread
  deriving Repr, DecidableEq

/-- One template argument of `EventLoop<...>`: its optional `receives` and
`emits` type lists and optional `thread_mode`. -/
structure Decl : Type where
  receives : Option (List Nat)
  emits : Option (List Nat)
  threadMode : Option ThreadMode
  deriving Repr, DecidableEq

/-- Model of `get_receives_t`: the declared list or the empty default. -/
def getReceives (d : Decl) : List Nat := d.receives.getD []

/-- Model of `get_emits_t`: the declared list or the empty default. -/
def getEmits (d : Decl) : List Nat := d.emits.getD []

/-- Model of `get_thread_mode`: the declared mode or the `SameThread` default. -/
def getThreadMode (d : Decl) : ThreadMode := d.threadMode.getD .SameThread

/-- Model of `is_receiver`: has a `receives` list. -/
def isReceiver (d : Decl) : Bool := d.receives.isSome

/-- Model of `is_external_emitter`: has `emits` but no `receives`. -/
def isExternalEmitter (d : Decl) : Bool := d.emits.isSome && d.receives.isNone

/-- Model of `contains_v<type_list<Ts...>, T>`: membership by type identity. -/
def listContains (l : List Nat) (t : Nat) : Bool := l.contains t

/-- Model of `lists_overlap_v<List1, List2>`: some element of the first list occurs in
the second. -/
def listsOverlap (l1 l2 : List Nat) : Bool := l1.any fun t => listContains l2 t

/-- Model of `can_receive<Receiver, Event>`: the event is in the receiver's `receives`. -/
def canReceive (d : Decl) (t : Nat) : Bool := listContains (getReceives d) t

/-- Model of `count_ownthread_producers_v<TargetReceives, Receivers...>`: one per
`OwnThread`-mode argument whose `emits` overlaps the target's `receives`. -/
def countOwnthreadProducers (target : List Nat) (ds : List Decl) : Nat :=
  ds.countP fun d => getThreadMode d == .OwnThread && listsOverlap (getEmits d) target

/-- Model of `has_samethread_producer_v`: some non-external, `SameThread`-mode argument
whose `emits` overlaps the target's `receives`. -/
def hasSamethreadProducer (target : List Nat) (ds : List Decl) : Bool :=
  ds.any fun d =>
    !isExternalEmitter d && getThreadMode d == .SameThread
      && listsOverlap (getEmits d) target

/-- Model of `count_external_producers_v`: one per external emitter whose `emits`
overlaps the target's `receives`. -/
def countExternalProducers (target : List Nat) (ds : List Decl) : Nat :=
  ds.countP fun d => isExternalEmitter d && listsOverlap (getEmits d) target

/-- Model of `total_producer_count_v<TargetReceives, Items...>` (ev.hpp 1251-1254). -/
def totalProducerCount (target : List Nat) (ds : List Decl) : Nat :=
  (if hasSamethreadProducer target ds then 1 else 0)
    + countOwnthreadProducers target ds + countExternalProducers target ds

/-- The two inbox implementations `OwnThreadWrapper::queue_type` can resolve
to. -/
inductive QueueKind : Type
  | SPSC
  | MPSC
  deriving Repr, DecidableEq

/-- Model of `OwnThreadWrapper::queue_type` (ev.hpp 885-887): `SPSCQueue` when
`producer_count < 2`, `ThreadSafeRingBuffer` otherwise, with
`producer_count = total_producer_count_v<get_receives_t<Receiver>, Receivers...>`. -/
def queueTypeFor (r : Decl) (ds : List Decl) : QueueKind :=
  if totalProducerCount (getReceives r) ds < 2 then .SPSC else .MPSC

/-- First-occurrence deduplication, as computed by `unique_types_t`
(ev.hpp 1057-1137): keep each event type's first occurrence. -/
def uniqueFirstAux (seen : List Nat) : List Nat → List Nat
  | [] => []
  | x :: xs =>
      if listContains seen x then uniqueFirstAux seen xs
      else x :: uniqueFirstAux (x :: seen) xs

/-- Model of `collect_same_thread_events_t<Receivers...>` (ev.hpp 1140-1147): the
concatenated `receives` lists of all `SameThread`-mode receivers, deduplicated
keeping first occurrences. -/
def sameThreadEvents (ds : List Decl) : List Nat :=
  uniqueFirstAux []
    (ds.flatMap fun d =>
      if isReceiver d && getThreadMode d == .SameThread then getReceives d else [])

/-- Model of `emits_to_same_thread` composed into `has_remote_producers_v`
(ev.hpp 1167-1182): some `OwnThread`-mode argument emits an event contained in
the loop-side event universe.  External emitters default to `SameThread` mode
and are therefore never counted. -/
def hasRemoteProducersCode (ds : List Decl) : Bool :=
  let ste := sameThreadEvents ds
  ds.any fun d =>
    getThreadMode d == .OwnThread && (getEmits d).any fun e => listContains ste e

/-- The matching predicate shared by `count_same_thread_receivers` and
`fanout_to_same_thread_fold`: `SameThread` mode and `can_receive`. -/
def isSameThreadConsumer (d : Decl) (t : Nat) : Bool :=
  getThreadMode d == .SameThread && canReceive d t

/-- The matching predicate shared by `count_own_thread_receivers` and
`push_to_own_thread_fold`: `OwnThread` mode and `can_receive`. -/
def isOwnThreadConsumer (d : Decl) (t : Nat) : Bool :=
  getThreadMode d == .OwnThread && canReceive d t

/-- Model of `count_same_thread_receivers<0, Event>` (ev.hpp 1519-1532): loop-hosted
receivers of the event, in declaration order. -/
def countSameThreadFor (ds : List Decl) (t : Nat) : Nat :=
  ds.countP fun d => isSameThreadConsumer d t

/-- Model of `count_own_thread_receivers<0, Event>` (ev.hpp 1535-1548): thread-hosted
receivers of the event. -/
def countOwnThreadFor (ds : List Decl) (t : Nat) : Nat :=
  ds.countP fun d => isOwnThreadConsumer d t

/-! ## `tag_type_selector<N>` (ev.hpp lines 135-148) -/

/-- The three candidate tag storage types. -/
inductive TagWidth : Type
  | u8
  | u16
  | u32
  deriving Repr, DecidableEq

/-- Width in bytes of a candidate tag type. -/
def TagWidth.bytes : TagWidth → Nat
  | .u8 => 1
  | .u16 => 2
  | .u32 => 4

/-- Number of distinct values a candidate tag type can hold. -/
def TagWidth.distinctValues : TagWidth → Nat
  | .u8 => 256
  | .u16 => 65536
  | .u32 => 4294967296

/-- Model of `tag_type_selector<N>::type` (ev.hpp 135-140): `uint8_t` when
`N < numeric_limits<uint8_t>::max()` (that is `N < 255`), else `uint16_t` when
`N < 65535`, else `uint32_t`; the `static_assert` requires `N < 2^32 - 1`. -/
def tagTypeSelector (N : Nat) : TagWidth :=
  if N < 255 then .u8 else if N < 65535 then .u16 else .u32

/-- Model of `TaggedEvent::uninitialized_tag` (ev.hpp 148): the selected type's maximum
value. -/
def uninitializedTag (N : Nat) : Nat := (tagTypeSelector N).distinctValues - 1

/-- Modelled from the spec wording of the claim, for comparison with
`tagTypeSelector`: the narrowest of the 1-, 2- and 4-byte unsigned types that
can hold `M` distinct values. -/
def narrowestWidthSpec (M : Nat) : TagWidth :=
  if M ≤ 256 then .u8 else if M ≤ 65536 then .u16 else .u32

/-! ## Fan-out copy/move policy (ev.hpp lines 1441-1452, 1551-1581, 1677-1705)

`fanout_to_same_thread_fold` and `push_to_own_thread_fold` walk the receiver
pack in declaration order keeping a running `dispatched` / `pushed` counter;
every consumer but the one at position `count` receives the event as an lvalue
(a copy), the one at position `count` receives `std::move(event)`
(loop-side fold) respectively `std::forward<Event>(event)` (push-side fold).
`dispatch_event` short-circuits `count == 1` through `dispatch_single_fast`
with an explicit `std::move`. -/

/-- How one consumer receives the payload: by copy construction or by move
construction. -/
inductive Delivery : Type
  | copy
  | move
  deriving Repr, DecidableEq

/-- The value category of the expression the emitting caller handed to the
fan-out (`Event&&` deduces an lvalue or rvalue reference). -/
inductive ValueCat : Type
  | lvalue
  | rvalue
  deriving Repr, DecidableEq

/-- What `std::forward<Event>(event)` delivers: a copy from an lvalue, a move
from an rvalue. -/
def forwardedDelivery : ValueCat → Delivery
  | .lvalue => .copy
  | .rvalue => .move

/-- The fold body of `fanout_to_same_thread_fold` (ev.hpp 1551-1570): walk the
pack, and on each match deliver a move iff the incremented `dispatched` counter
equals `count`, otherwise a copy. -/
def fanoutFoldAux (count t : Nat) (dispatched : Nat) : List Decl → List Delivery
  | [] => []
  | d :: rest =>
      if isSameThreadConsumer d t then
        (if dispatched + 1 = count then Delivery.move else Delivery.copy)
          :: fanoutFoldAux count t (dispatched + 1) rest
      else fanoutFoldAux count t dispatched rest

/-- Model of `fanout_to_same_thread_fold<0>` on the whole pack, with
`count = count_same_thread_receivers<0, Event>()`. -/
def fanoutToSameThreadFold (ds : List Decl) (t : Nat) : List Delivery :=
  fanoutFoldAux (countSameThreadFor ds t) t 0 ds

/-- The fold body of `push_to_own_thread_fold` (ev.hpp 1678-1697): on each
match deliver `std::forward<Event>(event)` iff the incremented `pushed`
counter equals `count`, otherwise a copy. -/
def pushFoldAux (count t : Nat) (cat : ValueCat) (pushed : Nat) :
    List Decl → List Delivery
  | [] => []
  | d :: rest =>
      if isOwnThreadConsumer d t then
        (if pushed + 1 = count then forwardedDelivery cat else Delivery.copy)
          :: pushFoldAux count t cat (pushed + 1) rest
      else pushFoldAux count t cat pushed rest

/-- Model of `push_to_own_thread_fold<0>` on the whole pack, with
`count = count_own_thread_receivers<0, Event>()`. -/
def pushToOwnThreadFold (ds : List Decl) (t : Nat) (cat : ValueCat) : List Delivery :=
  pushFoldAux (countOwnThreadFor ds t) t cat 0 ds

/-- The loop-side deliveries performed by `dispatch_event` (ev.hpp 1441-1452):
`count == 1` dispatches a direct `std::move` through `dispatch_single_fast`,
`count > 1` runs the fold, `count == 0` dispatches nothing. -/
def dispatchEventDeliveries (ds : List Decl) (t : Nat) : List Delivery :=
  let c := countSameThreadFor ds t
  if c = 1 then [Delivery.move]
  else if 1 < c then fanoutToSameThreadFold ds t
  else []

/-! ## `EventLoop::try_get_event` and the Spin poll (ev.hpp 1432-1439,
1267-1285), and the remote emission path (1481-1502, 1746-1769)

An event on the loop-side mailbox is a pair `(type id, payload)`. -/

/-- A mailbox event: its event-type identifier and payload. -/
abbrev Ev : Type := Nat × Nat

/-- Model of `EventLoop::try_get_event()`: `queue_.try_pop()` when the compile-time
`has_remote_producers` flag is set, otherwise `queue_.try_pop_local()`. -/
def tryGetEventQ {C : Nat} (flag : Bool) (q : DualQueue Ev C) :
    Option Ev × DualQueue Ev C :=
  if flag then q.tryPop else q.tryPopLocal

/-- Loop-thread state observed by the claims: the mailbox, the events pushed
toward `OwnThread` inboxes (flattened, one entry per receiving inbox), and the
total number of `on_event` invocations performed by `dispatch_event`. -/
structure LoopModel (C : Nat) where
  mailbox : DualQueue Ev C
  inboxPushes : List Ev
  onEventCount : Nat
  deriving Repr, DecidableEq

/-- Fresh loop state. -/
def LoopModel.init (C : Nat) : LoopModel C :=
  { mailbox := DualQueue.init Ev C, inboxPushes := [], onEventCount := 0 }

/-- Model of `EventLoop::queue_event<true>` (ev.hpp 1481-1502), the path taken by
`queue_remote` and hence by `TypedExternalEmitter::emit` on a live loop: push
to the mailbox's remote side iff some loop-hosted receiver consumes the event
type, and push once per thread-hosted receiver consuming it. -/
def queueEventRemote (ds : List Decl) (e : Ev) (s : LoopModel C) : LoopModel C :=
  let hasSame := listContains (sameThreadEvents ds) e.1
  let ownCount := countOwnThreadFor ds e.1
  if hasSame ∧ 0 < ownCount then
    { s with mailbox := s.mailbox.pushRemote e,
             inboxPushes := s.inboxPushes ++ List.replicate ownCount e }
  else if hasSame then { s with mailbox := s.mailbox.pushRemote e }
  else if 0 < ownCount then
    { s with inboxPushes := s.inboxPushes ++ List.replicate ownCount e }
  else s

/-- Model of `Spin::poll()` (ev.hpp 1267-1273): `try_get_event`, and on a hit
`dispatch_event`, which invokes `on_event` once per loop-hosted receiver of the
event type. -/
def spinPoll (ds : List Decl) (s : LoopModel C) : Bool × LoopModel C :=
  match tryGetEventQ (hasRemoteProducersCode ds) s.mailbox with
  | (none, m') => (false, { s with mailbox := m' })
  | (some e, m') =>
      (true, { s with mailbox := m',
                      onEventCount := s.onEventCount + countSameThreadFor ds e.1 })

/-- Iterate `Spin::poll` a given number of times on the loop thread. -/
def spinRun (ds : List Decl) : Nat → LoopModel C → LoopModel C
  | 0, s => s
  | n + 1, s => spinRun ds n (spinPoll ds s).2

/-! ## `Hybrid` strategy (ev.hpp lines 1345-1385)

`poll()` first calls the non-blocking `try_get_event`; the blocking
`wait_pop_any` involves producer threads, so a poll is modelled up to the
decision to block: the outcome records which branch the body took. -/

/-- The branch `Hybrid::poll` takes: a successful non-blocking dispatch, a
non-blocking `false` return, or the fall-through to the blocking
`wait_pop_any` call.  Each constructor carries the `empty_spins` value the
branch leaves behind. -/
inductive HybridStep (α : Type) : Type
  | dispatched (e : α) (emptySpins : Nat)
  | spinned (emptySpins : Nat)
  | waited (emptySpins : Nat)
  deriving Repr, DecidableEq

/-- Model of `Hybrid::poll()` (ev.hpp 1355-1375) up to the blocking call:
`try_get_event`; on a hit dispatch and reset `empty_spins`; on null increment
`empty_spins`, return `false` while `empty_spins < spin_count`, otherwise
reset `empty_spins` and enter `wait_pop_any` (the blocking branch). -/
def hybridPollStep {C : Nat} (flag : Bool) (spinCount emptySpins : Nat)
    (q : DualQueue Ev C) : HybridStep Ev × DualQueue Ev C :=
  match tryGetEventQ flag q with
  | (some e, q') => (.dispatched e 0, q')
  | (none, q') =>
      if emptySpins + 1 < spinCount then (.spinned (emptySpins + 1), q')
      else (.waited 0, q')

/-! ## `OwnThreadWrapper::push` (ev.hpp lines 917-925) and the inbox variants

The wrapper stores the event into a `tagged_event` envelope and pushes it onto
its inbox; the inbox `push`'s boolean result is discarded and the wrapper's
`push` returns `void`. -/

/-- Model of `OwnThreadWrapper::push` over an `SPSCQueue` inbox: the envelope push's
result is discarded (`notify()` is a no-op on the lock-free queue). -/
def ownThreadPushSPSC {α : Type} {C : Nat} (inbox : SPSCQueue α C) (v : α) :
    SPSCQueue α C :=
  (inbox.push v).2

/-- Model of `OwnThreadWrapper::push` over a `ThreadSafeRingBuffer` inbox: the envelope
push's result is discarded (`notify()` only signals the condition variable). -/
def ownThreadPushMPSC {α : Type} {C : Nat} (inbox : MPSCQueue α C) (v : α) :
    MPSCQueue α C :=
  (inbox.push v).2

/-! ## Operation language and invariants of the local ring buffer -/

/-- The operations performed on a `RingBuffer`: the one-step `push`, the
`alloc_slot`/`commit_push` pair as the code pairs them in
`DualQueue::push_local_event` (commit only after a non-null slot), and
`try_pop`. -/
inductive RBOp (α : Type) : Type
  | push (v : α)
  | pushEvent (v : α)
  | tryPop
  deriving Repr, DecidableEq

/-- One `RingBuffer` operation. -/
def rbStep {α : Type} [Inhabited α] {C : Nat} (q : RingBuffer α C) :
    RBOp α → RingBuffer α C
  | .push v => (q.push v).2
  | .pushEvent v =>
      match q.allocSlot with
      | none => q
      | some i => ({ q with buffer := q.buffer.set i v }).commitPush
  | .tryPop => q.tryPop.2

/-- A sequence of `RingBuffer` operations from the initial state. -/
def rbRun (α : Type) [Inhabited α] (C : Nat) (ops : List (RBOp α)) : RingBuffer α C :=
  ops.foldl rbStep (RingBuffer.init α C)

/-- Ghost FIFO abstraction of the ring: the pending (pushed but not yet
popped) elements, oldest first.  Used to state which elements occupy the
slots `head .. tail-1 (mod C)`. -/
def rbAbstractStep {α : Type} (C : Nat) (l : List α) : RBOp α → List α
  | .push v => if l.length < C then l ++ [v] else l
  | .pushEvent v => if l.length < C then l ++ [v] else l
  | .tryPop => l.drop 1

/-- The ghost FIFO after a sequence of operations. -/
def rbAbstractRun (α : Type) (C : Nat) (ops : List (RBOp α)) : List α :=
  ops.foldl (rbAbstractStep C) []

/-- The elements occupying slots `head .. tail-1` taken `mod C`, oldest
first. -/
def RingBuffer.contents {α : Type} [Inhabited α] {C : Nat} (q : RingBuffer α C) :
    List α :=
  (List.range q.size).map fun i => q.slotAt ((q.head + i) % C)

/-- The ring-buffer representation invariant, relating a state to the ghost
FIFO `l` of pending elements: the backing array has length `C`, the indices
are ordered with at most `C` pending elements, and slot `(head + i) % C`
holds the `i`-th pending element. -/
structure RBInv {α : Type} [Inhabited α] {C : Nat} (q : RingBuffer α C)
    (l : List α) : Prop where
  hlen : q.buffer.length = C
  hle : q.head ≤ q.tail
  hsize : q.tail - q.head = l.length
  hcap : l.length ≤ C
  hcorr : ∀ i, i < l.length → q.slotAt ((q.head + i) % C) = l.getD i default

namespace ListFacts

theorem getD_set_ne {α : Type} [Inhabited α] (l : List α) (i j : Nat) (v : α)
    (h : i ≠ j) : (l.set i v).getD j default = l.getD j default := by
  simp [List.getD_eq_getElem?_getD, List.getElem?_set_ne h]

theorem getD_set_self {α : Type} [Inhabited α] (l : List α) (i : Nat) (v : α)
    (h : i < l.length) : (l.set i v).getD i default = v := by
  simp [List.getD_eq_getElem?_getD, List.getElem?_set_self, h]

theorem getD_append_lt {α : Type} [Inhabited α] (l : List α) (v : α) (i : Nat)
    (h : i < l.length) : (l ++ [v]).getD i default = l.getD i default := by
  simp [List.getD_eq_getElem?_getD, List.getElem?_append_left h]

theorem getD_append_len {α : Type} [Inhabited α] (l : List α) (v : α) :
    (l ++ [v]).getD l.length default = v := by
  simp [List.getD_eq_getElem?_getD]

theorem getD_drop_one {α : Type} [Inhabited α] (l : List α) (i : Nat) :
    (l.drop 1).getD i default = l.getD (i + 1) default := by
  simp [List.getD_eq_getElem?_getD, List.getElem?_drop, Nat.add_comm]

/-- Two indices strictly less than a window of width `C` apart have distinct
residues mod `C`. -/
theorem mod_ne_window {C a b : Nat} (hab : a < b) (hlt : b - a < C) :
    a % C ≠ b % C := by
  intro h
  have h1 : C ∣ b - a := (Nat.modEq_iff_dvd' (Nat.le_of_lt hab)).mp h
  have h2 : 0 < b - a := by omega
  have := Nat.le_of_dvd h2 h1
  omega

end ListFacts

/-- A successful push extends the ghost FIFO. -/
theorem RBInv.push {α : Type} [Inhabited α] {C : Nat} {q : RingBuffer α C}
    {l : List α} (hInv : RBInv q l) (v : α) (hlt : l.length < C) :
    (q.push v).1 = true ∧ RBInv (q.push v).2 (l ++ [v]) := by
  have hsz : q.size = l.length := by
    have := hInv.hsize; simp [RingBuffer.size, this]
  have hfull : ¬ C ≤ q.size := by omega
  refine ⟨by simp [RingBuffer.push, hfull], ?_⟩
  have htail : q.tail = q.head + l.length := by
    have := hInv.hsize; have := hInv.hle; omega
  constructor
  · simp [RingBuffer.push, hfull, hInv.hlen]
  · simp [RingBuffer.push, hfull]; exact Nat.le_succ_of_le hInv.hle
  · simp [RingBuffer.push, hfull]
    have := hInv.hle; have := hInv.hsize; omega
  · simpa using Nat.succ_le_of_lt hlt
  · intro i hi
    simp only [List.length_append, List.length_cons, List.length_nil] at hi
    simp only [RingBuffer.push, hfull, if_false, RingBuffer.slotAt]
    rcases Nat.lt_or_ge i l.length with hcase | hcase
    · have hne : (q.head + i) % C ≠ q.tail % C := by
        apply ListFacts.mod_ne_window
        · omega
        · omega
      rw [ListFacts.getD_set_ne _ _ _ _ (Ne.symm hne)]
      rw [ListFacts.getD_append_lt _ _ _ hcase]
      exact hInv.hcorr i hcase
    · have hieq : i = l.length := by omega
      subst hieq
      have hidx : (q.head + l.length) % C = q.tail % C := by rw [htail]
      rw [hidx]
      have hCpos : 0 < C := by omega
      rw [ListFacts.getD_set_self _ _ _ (by rw [hInv.hlen]; exact Nat.mod_lt _ hCpos)]
      exact (ListFacts.getD_append_len l v).symm

/-- A push onto a full ring fails and returns the state unchanged. -/
theorem RBInv.push_full {α : Type} [Inhabited α] {C : Nat} {q : RingBuffer α C}
    {l : List α} (hInv : RBInv q l) (v : α) (hfull : C ≤ l.length) :
    q.push v = (false, q) := by
  have hsz : q.size = l.length := by
    have := hInv.hsize; simp [RingBuffer.size, this]
  simp [RingBuffer.push, hsz, hfull]

/-- Model of `try_pop` removes the oldest pending element. -/
theorem RBInv.tryPop {α : Type} [Inhabited α] {C : Nat} {q : RingBuffer α C}
    {l : List α} (hInv : RBInv q l) :
    RBInv q.tryPop.2 (l.drop 1) ∧
      q.tryPop.1 = if l.length = 0 then none else some (l.getD 0 default) := by
  rcases Nat.eq_or_lt_of_le hInv.hle with heq | hlt
  · have hl0 : l.length = 0 := by have := hInv.hsize; omega
    have hl : l = [] := List.eq_nil_of_length_eq_zero hl0
    subst hl
    constructor
    · simpa [RingBuffer.tryPop, heq] using hInv
    · simp [RingBuffer.tryPop, heq]
  · have hne : ¬ q.head = q.tail := by omega
    have hlpos : 0 < l.length := by have := hInv.hsize; omega
    constructor
    · constructor
      · simpa [RingBuffer.tryPop, hne] using hInv.hlen
      · simp [RingBuffer.tryPop, hne]; omega
      · simp [RingBuffer.tryPop, hne]
        have := hInv.hsize; omega
      · simp only [List.length_drop]
        have := hInv.hcap; omega
      · intro i hi
        simp only [List.length_drop] at hi
        simp only [RingBuffer.tryPop, hne, if_false]
        rw [ListFacts.getD_drop_one]
        have h1 : q.head + 1 + i = q.head + (i + 1) := by omega
        have h2 := hInv.hcorr (i + 1) (by omega)
        simpa [RingBuffer.slotAt, h1] using h2
    · simp only [RingBuffer.tryPop, hne, if_false]
      have h0 : q.slotAt (q.head % C) = l.getD 0 default := by
        have := hInv.hcorr 0 hlpos
        simpa using this
      simp [h0, Nat.pos_iff_ne_zero.mp hlpos]

/-- The guarded `alloc_slot`/`commit_push` pair behaves exactly like `push`. -/
theorem rbStep_pushEvent_eq {α : Type} [Inhabited α] {C : Nat}
    (q : RingBuffer α C) (v : α) : rbStep q (.pushEvent v) = (q.push v).2 := by
  by_cases hfull : C ≤ q.size
  · simp [rbStep, RingBuffer.allocSlot, RingBuffer.push, hfull]
  · simp [rbStep, RingBuffer.allocSlot, RingBuffer.push, hfull, RingBuffer.commitPush]

/-- Every `RingBuffer` operation preserves the representation invariant,
tracking the ghost FIFO. -/
theorem RBInv.step {α : Type} [Inhabited α] {C : Nat} {q : RingBuffer α C}
    {l : List α} (hInv : RBInv q l) (op : RBOp α) :
    RBInv (rbStep q op) (rbAbstractStep C l op) := by
  cases op with
  | push v =>
      by_cases hlt : l.length < C
      · simpa [rbStep, rbAbstractStep, hlt] using (hInv.push v hlt).2
      · have := hInv.push_full v (by omega)
        simp [rbStep, rbAbstractStep, hlt, this]
        exact hInv
  | pushEvent v =>
      rw [rbStep_pushEvent_eq]
      by_cases hlt : l.length < C
      · simpa [rbAbstractStep, hlt] using (hInv.push v hlt).2
      · have := hInv.push_full v (by omega)
        simp [rbAbstractStep, hlt, this]
        exact hInv
  | tryPop => simpa [rbStep, rbAbstractStep] using hInv.tryPop.1

/-- The initial ring satisfies the invariant with an empty ghost FIFO. -/
theorem RBInv.init (α : Type) [Inhabited α] (C : Nat) :
    RBInv (RingBuffer.init α C) ([] : List α) := by
  constructor <;> simp [RingBuffer.init]

/-- Invariant after an arbitrary operation sequence. -/
theorem rbRun_inv (α : Type) [Inhabited α] (C : Nat) (ops : List (RBOp α)) :
    RBInv (rbRun α C ops) (rbAbstractRun α C ops) := by
  suffices h : ∀ (ops : List (RBOp α)) (q : RingBuffer α C) (l : List α),
      RBInv q l → RBInv (ops.foldl rbStep q) (ops.foldl (rbAbstractStep C) l) by
    exact h ops _ _ (RBInv.init α C)
  intro ops
  induction ops with
  | nil => intro q l h; simpa using h
  | cons op rest ih =>
      intro q l h
      exact ih _ _ (h.step op)

/-- Under the invariant the occupied slots read back exactly the ghost FIFO. -/
theorem RBInv.contents_eq {α : Type} [Inhabited α] {C : Nat}
    {q : RingBuffer α C} {l : List α} (hInv : RBInv q l) : q.contents = l := by
  have hlen : q.contents.length = l.length := by
    simp [RingBuffer.contents, RingBuffer.size, hInv.hsize]
  apply List.ext_getElem hlen
  intro i h1 h2
  have hi : i < l.length := h2
  have hc : q.contents[i] = q.slotAt ((q.head + i) % C) := by
    simp [RingBuffer.contents]
  rw [hc]
  have := hInv.hcorr i hi
  rw [this]
  simp [List.getD_eq_getElem?_getD, List.getElem?_eq_getElem h2]

/-! ## Invariants of the dual mailbox -/

/-- The mailbox invariant relating the state to the ghost FIFO `l` of its
local ring: the ring invariant, plus the sequential `has_remote_` discipline
(the hint is only clear when the shared FIFO is empty — maintained by
`push_remote` setting it after enqueueing and the drain clearing it after
emptying). -/
def DQInv {α : Type} [Inhabited α] {C : Nat} (q : DualQueue α C) (l : List α) : Prop :=
  RBInv q.localQueue l ∧ (q.hasRemote = false → q.remoteQueue = [])

/-- The drain loop pushes the longest prefix of the shared FIFO that fits
into the local ring and silently discards the rest (`RingBuffer::push`'s
failure result is ignored while the front is popped regardless). -/
theorem drainLoop_inv {α : Type} [Inhabited α] {C : Nat}
    {rb : RingBuffer α C} {l : List α} (hInv : RBInv rb l) (ms : List α) :
    RBInv (drainLoop rb ms) (l ++ ms.take (C - l.length)) := by
  induction ms generalizing rb l with
  | nil => simpa using hInv
  | cons v rest ih =>
      by_cases hlt : l.length < C
      · have hpush := (hInv.push v hlt).2
        have hstep := ih hpush
        have harith : C - l.length = (C - (l.length + 1)) + 1 := by omega
        have : (l ++ [v]) ++ rest.take (C - (l ++ [v]).length)
            = l ++ (v :: rest).take (C - l.length) := by
          rw [harith]
          simp [List.take_succ_cons, List.append_assoc]
        rw [show drainLoop rb (v :: rest) = drainLoop (rb.push v).2 rest from rfl]
        rw [← this]
        exact hstep

      · have hfull : C ≤ l.length := by omega
        have hf := hInv.push_full v hfull
        have htake : C - l.length = 0 := by omega
        have hstep := ih hInv
        rw [show drainLoop rb (v :: rest) = drainLoop (rb.push v).2 rest from rfl, hf]
        simpa [htake] using hstep

/-- Model of `drain_remote` empties the shared FIFO unconditionally, clears
`has_remote_`, and appends to the local ring only the prefix of the shared
FIFO that fits — the remainder is discarded. -/
theorem drainRemote_spec {α : Type} [Inhabited α] {C : Nat}
    {q : DualQueue α C} {l : List α} (hInv : DQInv q l) :
    (q.drainRemote).remoteQueue = [] ∧ (q.drainRemote).hasRemote = false ∧
      RBInv (q.drainRemote).localQueue (l ++ q.remoteQueue.take (C - l.length)) := by
  obtain ⟨hrb, hflag⟩ := hInv
  by_cases hr : q.hasRemote = false
  · have hempty := hflag hr
    refine ⟨?_, ?_, ?_⟩
    · simp [DualQueue.drainRemote, hr, hempty]
    · simp [DualQueue.drainRemote, hr]
    · simpa [DualQueue.drainRemote, hr, hempty] using hrb
  · refine ⟨?_, ?_, ?_⟩
    · simp [DualQueue.drainRemote, hr]
    · simp [DualQueue.drainRemote, hr]
    · simpa [DualQueue.drainRemote, hr] using drainLoop_inv hrb q.remoteQueue

/-- Both indices are non-decreasing under every operation. -/
theorem rbStep_mono {α : Type} [Inhabited α] {C : Nat} (q : RingBuffer α C)
    (op : RBOp α) :
    q.head ≤ (rbStep q op).head ∧ q.tail ≤ (rbStep q op).tail := by
  cases op with
  | push v =>
      by_cases h : C ≤ q.size <;> simp [rbStep, RingBuffer.push, h]
  | pushEvent v =>
      rw [rbStep_pushEvent_eq]
      by_cases h : C ≤ q.size <;> simp [RingBuffer.push, h]
  | tryPop =>
      by_cases h : q.head = q.tail <;> simp [rbStep, RingBuffer.tryPop, h]

/-- C8.  The local ring buffer of power-of-two capacity `C` maintains, across
every sequence of `push`, `alloc_slot`/`commit_push` and `try_pop`
operations: `head_` and `tail_` are monotonically increasing, `size()` is
`tail_ - head_` and stays at most `C`, `empty()` holds iff `head_ == tail_`,
a push is rejected iff `size() = C`, and the occupied slots are exactly the
indices `head .. tail-1` taken mod `C`, reading back the pending elements in
FIFO order (`rbAbstractRun`). -/
theorem claim_C8 (α : Type) [Inhabited α] (C k : Nat) (hC : C = 2 ^ k)
    (ops : List (RBOp α)) :
    (rbRun α C ops).head ≤ (rbRun α C ops).tail
    ∧ (rbRun α C ops).tail - (rbRun α C ops).head ≤ C
    ∧ (rbRun α C ops).size = (rbRun α C ops).tail - (rbRun α C ops).head
    ∧ ((rbRun α C ops).isEmpty = true ↔ (rbRun α C ops).head = (rbRun α C ops).tail)
    ∧ (∀ v : α, ((rbRun α C ops).push v).1 = false ↔ (rbRun α C ops).size = C)
    ∧ (rbRun α C ops).contents = rbAbstractRun α C ops
    ∧ (∀ op : RBOp α, (rbRun α C ops).head ≤ (rbStep (rbRun α C ops) op).head
        ∧ (rbRun α C ops).tail ≤ (rbStep (rbRun α C ops) op).tail) := by
  have hInv := rbRun_inv α C ops
  have hsz : (rbRun α C ops).size ≤ C := by
    have h1 := hInv.hsize
    have h2 := hInv.hcap
    simp [RingBuffer.size]
    omega
  refine ⟨hInv.hle, ?_, rfl, ?_, ?_, hInv.contents_eq, fun op => rbStep_mono _ op⟩
  · have h1 := hInv.hsize
    have h2 := hInv.hcap
    omega
  · simp [RingBuffer.isEmpty]
  · intro v
    by_cases h : C ≤ (rbRun α C ops).size
    · simp [RingBuffer.push, h]
      omega
    · simp [RingBuffer.push, h]
      omega

/-- Witness for C8 at capacity `2 = 2^1` and a concrete operation sequence:
a rejected third push and a pop, checking the slot-content invariant. -/
theorem claim_C8_witness :
    (2 : Nat) = 2 ^ 1
    ∧ (rbRun Nat 2 [RBOp.push 5, RBOp.pushEvent 6, RBOp.push 7, RBOp.tryPop]).contents
        = rbAbstractRun Nat 2 [RBOp.push 5, RBOp.pushEvent 6, RBOp.push 7, RBOp.tryPop] :=
  ⟨by decide,
   (claim_C8 Nat 2 1 (by decide)
      [RBOp.push 5, RBOp.pushEvent 6, RBOp.push 7, RBOp.tryPop]).2.2.2.2.2.1⟩

/-- C9.  For every queue variant (local `RingBuffer`, SPSC inbox, MPSC inbox),
a push that fails because the queue is full is atomic: it returns `false`
(respectively a null slot for `alloc_slot`) and leaves the queue entirely
unchanged — `head_`, `tail_`, every stored element, the scratch slot and the
`has_data_` flag are the same as before the call. -/
theorem claim_C9 {α : Type} [Inhabited α] {C : Nat}
    (rq : RingBuffer α C) (sq : SPSCQueue α C) (mq : MPSCQueue α C) (v : α)
    (hr : C ≤ rq.size) (hs : C ≤ sq.tail - sq.head) (hm : C ≤ mq.tail - mq.head) :
    rq.push v = (false, rq) ∧ rq.allocSlot = none
    ∧ sq.push v = (false, sq) ∧ mq.push v = (false, mq) := by
  refine ⟨?_, ?_, ?_, ?_⟩
  · simp [RingBuffer.push, hr]
  · simp [RingBuffer.allocSlot, hr]
  · simp [SPSCQueue.push, hs]
  · simp [MPSCQueue.push, hm]

/-- Witness for C9: full capacity-1 instances of all three queues. -/
theorem claim_C9_witness :
    (1 : Nat) ≤ (⟨[9], 0, 1⟩ : RingBuffer Nat 1).size
    ∧ (1 : Nat) ≤ (⟨[9], 7, 0, 1, false⟩ : SPSCQueue Nat 1).tail
        - (⟨[9], 7, 0, 1, false⟩ : SPSCQueue Nat 1).head
    ∧ (1 : Nat) ≤ (⟨[9], 7, 0, 1, true, false⟩ : MPSCQueue Nat 1).tail
        - (⟨[9], 7, 0, 1, true, false⟩ : MPSCQueue Nat 1).head
    ∧ (⟨[9], 0, 1⟩ : RingBuffer Nat 1).push 3 = (false, ⟨[9], 0, 1⟩)
    ∧ (⟨[9], 7, 0, 1, false⟩ : SPSCQueue Nat 1).push 3
        = (false, ⟨[9], 7, 0, 1, false⟩)
    ∧ (⟨[9], 7, 0, 1, true, false⟩ : MPSCQueue Nat 1).push 3
        = (false, ⟨[9], 7, 0, 1, true, false⟩) := by
  have h := claim_C9 (⟨[9], 0, 1⟩ : RingBuffer Nat 1)
    (⟨[9], 7, 0, 1, false⟩ : SPSCQueue Nat 1)
    (⟨[9], 7, 0, 1, true, false⟩ : MPSCQueue Nat 1) 3
    (by decide) (by decide) (by decide)
  exact ⟨by decide, by decide, by decide, h.1, h.2.2.1, h.2.2.2⟩

/-- C2, counterexample.  The claim says a drain moves events only as long as
they fit and leaves the remainder in the shared FIFO.  Concrete refutation:
with the capacity-2 local ring full (`head = 0`, `tail = 2`, holding `10, 20`)
and `30` pending in the shared FIFO, `drain_remote` empties the shared FIFO
anyway (`30` is not left behind), clears `has_remote_`, and the local ring is
unchanged — the event `30` has been discarded. -/
theorem claim_C2_counterexample :
    ((⟨⟨[10, 20], 0, 2⟩, [30], true⟩ : DualQueue Nat 2).localQueue.size = 2)
    ∧ ((⟨⟨[10, 20], 0, 2⟩, [30], true⟩ : DualQueue Nat 2).drainRemote
        = ⟨⟨[10, 20], 0, 2⟩, [], false⟩)
    ∧ ((⟨⟨[10, 20], 0, 2⟩, [30], true⟩ : DualQueue Nat 2).drainRemote.localQueue.contents
        = [10, 20]) := by
  decide

/-- C2, amended.  When the dual mailbox drains its shared FIFO, the shared
FIFO is always fully emptied and `has_remote_` is unconditionally cleared;
each drained event is appended to the local ring only if it fits — the
longest fitting prefix is kept and every event beyond it is silently
discarded (rather than left in the shared FIFO). -/
theorem claim_C2_amended {α : Type} [Inhabited α] {C : Nat}
    (q : DualQueue α C) (l : List α) (hInv : DQInv q l) :
    q.drainRemote.remoteQueue = []
    ∧ q.drainRemote.hasRemote = false
    ∧ q.drainRemote.localQueue.contents = l ++ q.remoteQueue.take (C - l.length) := by
  obtain ⟨h1, h2, h3⟩ := drainRemote_spec hInv
  exact ⟨h1, h2, h3.contents_eq⟩

/-- Witness for the amended C2: an empty capacity-2 ring receiving a 3-event
drain keeps the fitting prefix `[4, 5]` and drops `6`. -/
theorem claim_C2_amended_witness :
    DQInv (⟨⟨[0, 0], 0, 0⟩, [4, 5, 6], true⟩ : DualQueue Nat 2) []
    ∧ (⟨⟨[0, 0], 0, 0⟩, [4, 5, 6], true⟩ : DualQueue Nat 2).drainRemote.localQueue.contents
        = [4, 5] := by
  have hW : DQInv (⟨⟨[0, 0], 0, 0⟩, [4, 5, 6], true⟩ : DualQueue Nat 2) [] := by
    refine ⟨⟨rfl, by decide, by decide, by decide, ?_⟩, by decide⟩
    intro i hi
    exact absurd hi (Nat.not_lt_zero i)
  refine ⟨hW, ?_⟩
  have h := (claim_C2_amended (⟨⟨[0, 0], 0, 0⟩, [4, 5, 6], true⟩ : DualQueue Nat 2) [] hW).2.2
  simpa using h

/-- C10, counterexample.  The claim says `empty()` drains every pending
shared-FIFO event *into the local ring*.  Concrete refutation: with the
capacity-2 local ring full (holding `7, 8`) and `9` pending in the shared
FIFO, `empty()` returns `false` and afterwards the shared FIFO is empty and
`has_remote_` is clear, but the local ring still holds exactly `7, 8` — the
drained event `9` was discarded, not moved into the local ring. -/
theorem claim_C10_counterexample :
    ((⟨⟨[7, 8], 0, 2⟩, [9], true⟩ : DualQueue Nat 2).emptyCheck
        = (false, ⟨⟨[7, 8], 0, 2⟩, [], false⟩))
    ∧ ((⟨⟨[7, 8], 0, 2⟩, [9], true⟩ : DualQueue Nat 2).emptyCheck.2.localQueue.contents
        = [7, 8]) := by
  decide

/-- C10, amended.  `DualQueue::empty()` is not a pure observer: it first runs
`drain_remote` — emptying the shared FIFO, clearing `has_remote_`, and
appending to the local ring the prefix of the shared FIFO that fits (any
event beyond it is discarded) — and then returns whether the local ring is
empty; the state change is observed by all later operations. -/
theorem claim_C10_amended {α : Type} [Inhabited α] {C : Nat}
    (q : DualQueue α C) (l : List α) (hInv : DQInv q l) :
    q.emptyCheck.2.remoteQueue = []
    ∧ q.emptyCheck.2.hasRemote = false
    ∧ q.emptyCheck.2.localQueue.contents = l ++ q.remoteQueue.take (C - l.length)
    ∧ (q.emptyCheck.1 = true ↔ l ++ q.remoteQueue.take (C - l.length) = []) := by
  obtain ⟨h1, h2, h3⟩ := drainRemote_spec hInv
  have hq2 : q.emptyCheck.2 = q.drainRemote := rfl
  refine ⟨by rw [hq2]; exact h1, by rw [hq2]; exact h2, by rw [hq2]; exact h3.contents_eq, ?_⟩
  have hres : q.emptyCheck.1 = q.drainRemote.localQueue.isEmpty := rfl
  rw [hres]
  have hle := h3.hle
  have hsize := h3.hsize
  constructor
  · intro hb
    have : q.drainRemote.localQueue.head = q.drainRemote.localQueue.tail := by
      simpa [RingBuffer.isEmpty] using hb
    have hlen0 : (l ++ q.remoteQueue.take (C - l.length)).length = 0 := by omega
    exact List.eq_nil_of_length_eq_zero hlen0
  · intro hb
    have hlen0 : (l ++ q.remoteQueue.take (C - l.length)).length = 0 := by
      rw [hb]; rfl
    have : q.drainRemote.localQueue.head = q.drainRemote.localQueue.tail := by omega
    simpa [RingBuffer.isEmpty] using this

/-- Witness for the amended C10: a mailbox with one local event and two
remote events; `empty()` reports `false` and moves both remote events in. -/
theorem claim_C10_amended_witness :
    DQInv (⟨⟨[3, 0, 0, 0], 0, 1⟩, [4, 5], true⟩ : DualQueue Nat 4) [3]
    ∧ (⟨⟨[3, 0, 0, 0], 0, 1⟩, [4, 5], true⟩ : DualQueue Nat 4).emptyCheck.2.localQueue.contents
        = [3, 4, 5]
    ∧ ((⟨⟨[3, 0, 0, 0], 0, 1⟩, [4, 5], true⟩ : DualQueue Nat 4).emptyCheck.1 = true
        ↔ ([3] : List Nat) ++ [4, 5].take (4 - 1) = []) := by
  have hW : DQInv (⟨⟨[3, 0, 0, 0], 0, 1⟩, [4, 5], true⟩ : DualQueue Nat 4) [3] := by
    refine ⟨⟨rfl, by decide, by decide, by decide, ?_⟩, by decide⟩
    intro i hi
    have h0 : i = 0 := by simp at hi; omega
    subst h0
    decide
  have h := claim_C10_amended (⟨⟨[3, 0, 0, 0], 0, 1⟩, [4, 5], true⟩ : DualQueue Nat 4) [3] hW
  refine ⟨hW, ?_, h.2.2.2⟩
  have h3 := h.2.2.1
  simpa using h3

/-- C3, counterexample.  The claim says a push onto a full mailbox or inbox
reports the failure to the emitting caller.  Concrete refutation: both emit
paths are `void` in C++ (the embedding returns only the successor state), and
on a full capacity-1 mailbox/inbox the pushed event `9` simply vanishes — the
state is returned unchanged with no failure indicator: the underlying queue's
boolean is discarded inside `push_local_event` and `OwnThreadWrapper::push`. -/
theorem claim_C3_counterexample :
    DualQueue.pushLocalEvent (⟨⟨[5], 0, 1⟩, [], false⟩ : DualQueue Nat 1) 9
        = ⟨⟨[5], 0, 1⟩, [], false⟩
    ∧ ownThreadPushSPSC (⟨[5], 0, 0, 1, false⟩ : SPSCQueue Nat 1) 9
        = ⟨[5], 0, 0, 1, false⟩
    ∧ ownThreadPushMPSC (⟨[5], 0, 0, 1, true, false⟩ : MPSCQueue Nat 1) 9
        = ⟨[5], 0, 0, 1, true, false⟩ := by
  decide

/-- C3, amended.  The queue primitives do return a failure indicator on a
full queue (`RingBuffer::push`/`alloc_slot`, `SPSCQueue::push`,
`ThreadSafeRingBuffer::push`), but the emitting paths discard it:
`DualQueue::push_local_event` and `OwnThreadWrapper::push` are `void`, so a
push onto a full mailbox local ring or a full inbox silently drops the event
and reports nothing to the emitting caller. -/
theorem claim_C3_amended {α : Type} [Inhabited α] {C : Nat}
    (q : DualQueue α C) (sq : SPSCQueue α C) (mq : MPSCQueue α C) (v : α)
    (hq : C ≤ q.localQueue.size) (hs : C ≤ sq.tail - sq.head)
    (hm : C ≤ mq.tail - mq.head) :
    q.localQueue.allocSlot = none
    ∧ (sq.push v).1 = false ∧ (mq.push v).1 = false
    ∧ q.pushLocalEvent v = q
    ∧ ownThreadPushSPSC sq v = sq
    ∧ ownThreadPushMPSC mq v = mq := by
  have hslot : q.localQueue.allocSlot = none := by
    simp [RingBuffer.allocSlot, hq]
  refine ⟨hslot, ?_, ?_, ?_, ?_, ?_⟩
  · simp [SPSCQueue.push, hs]
  · simp [MPSCQueue.push, hm]
  · simp [DualQueue.pushLocalEvent, hslot]
  · simp [ownThreadPushSPSC, SPSCQueue.push, hs]
  · simp [ownThreadPushMPSC, MPSCQueue.push, hm]

/-- Witness for the amended C3 at full capacity-2 instances. -/
theorem claim_C3_amended_witness :
    (2 : Nat) ≤ (⟨⟨[1, 2], 0, 2⟩, [], false⟩ : DualQueue Nat 2).localQueue.size
    ∧ (2 : Nat) ≤ (⟨[1, 2], 0, 0, 2, false⟩ : SPSCQueue Nat 2).tail
        - (⟨[1, 2], 0, 0, 2, false⟩ : SPSCQueue Nat 2).head
    ∧ (2 : Nat) ≤ (⟨[1, 2], 0, 0, 2, true, false⟩ : MPSCQueue Nat 2).tail
        - (⟨[1, 2], 0, 0, 2, true, false⟩ : MPSCQueue Nat 2).head
    ∧ DualQueue.pushLocalEvent (⟨⟨[1, 2], 0, 2⟩, [], false⟩ : DualQueue Nat 2) 8
        = ⟨⟨[1, 2], 0, 2⟩, [], false⟩ := by
  have h := claim_C3_amended (⟨⟨[1, 2], 0, 2⟩, [], false⟩ : DualQueue Nat 2)
    (⟨[1, 2], 0, 0, 2, false⟩ : SPSCQueue Nat 2)
    (⟨[1, 2], 0, 0, 2, true, false⟩ : MPSCQueue Nat 2) 8
    (by decide) (by decide) (by decide)
  exact ⟨by decide, by decide, by decide, h.2.2.2.1⟩

/-- C5, counterexample.  The claim says the tag width is the narrowest of 1,
2, 4 bytes holding `N + 1` distinct values, and in particular 1 byte whenever
`N + 1 ≤ 256`.  Concrete refutation at `N = 255`: `N + 1 = 256` fits one byte
(`narrowestWidthSpec` picks `u8`), but `tag_type_selector` compares with a
strict `N < 255` and selects the 2-byte `uint16_t`. -/
theorem claim_C5_counterexample :
    255 + 1 ≤ 256
    ∧ tagTypeSelector 255 = TagWidth.u16
    ∧ (tagTypeSelector 255).bytes = 2
    ∧ narrowestWidthSpec (255 + 1) = TagWidth.u8
    ∧ tagTypeSelector 255 ≠ narrowestWidthSpec (255 + 1) := by
  decide

/-- C5, amended.  For an event universe of size `N` (with the
`static_assert` bound `N < 2^32 - 1`), the envelope's tag storage width is
the narrowest unsigned integer type among 1, 2 and 4 bytes that can hold
`N + 2` distinct values — the `N` type indices, the all-ones uninitialized
sentinel, and one spare below it, since the comparisons are strict
(`N < 255`, `N < 65535`).  In particular the 1-byte type is selected exactly
when `N + 1 ≤ 255`, the 2-byte type exactly when `255 < N + 1 ≤ 65535`, and
the `N` indices plus the sentinel always fit the selected type. -/
theorem claim_C5_amended (N : Nat) (h : N < 4294967295) :
    tagTypeSelector N = narrowestWidthSpec (N + 2)
    ∧ (tagTypeSelector N = TagWidth.u8 ↔ N + 1 ≤ 255)
    ∧ (tagTypeSelector N = TagWidth.u16 ↔ 255 < N + 1 ∧ N + 1 ≤ 65535)
    ∧ N + 1 < (tagTypeSelector N).distinctValues
    ∧ N ≤ uninitializedTag N := by
  by_cases h1 : N < 255
  · have e1 : tagTypeSelector N = .u8 := by simp [tagTypeSelector, h1]
    have e2 : narrowestWidthSpec (N + 2) = .u8 := by
      simp [narrowestWidthSpec, show N + 2 ≤ 256 by omega]
    refine ⟨by rw [e1, e2], ?_, ?_, ?_, ?_⟩
    · rw [e1]; simp; omega
    · rw [e1]; simp; omega
    · rw [e1]; simp [TagWidth.distinctValues]; omega
    · simp [uninitializedTag, e1, TagWidth.distinctValues]; omega
  · by_cases h2 : N < 65535
    · have e1 : tagTypeSelector N = .u16 := by simp [tagTypeSelector, h1, h2]
      have e2 : narrowestWidthSpec (N + 2) = .u16 := by
        simp [narrowestWidthSpec, show ¬ N + 2 ≤ 256 by omega,
          show N + 2 ≤ 65536 by omega]
      refine ⟨by rw [e1, e2], ?_, ?_, ?_, ?_⟩
      · rw [e1]; simp; omega
      · rw [e1]; simp; omega
      · rw [e1]; simp [TagWidth.distinctValues]; omega
      · simp [uninitializedTag, e1, TagWidth.distinctValues]; omega
    · have e1 : tagTypeSelector N = .u32 := by simp [tagTypeSelector, h1, h2]
      have e2 : narrowestWidthSpec (N + 2) = .u32 := by
        simp [narrowestWidthSpec, show ¬ N + 2 ≤ 256 by omega,
          show ¬ N + 2 ≤ 65536 by omega]
      refine ⟨by rw [e1, e2], ?_, ?_, ?_, ?_⟩
      · rw [e1]; simp; omega
      · rw [e1]; simp; omega
      · rw [e1]; simp [TagWidth.distinctValues]; omega
      · simp [uninitializedTag, e1, TagWidth.distinctValues]; omega

/-- Witness for the amended C5 at `N = 300`: the 2-byte type is selected. -/
theorem claim_C5_amended_witness :
    (300 : Nat) < 4294967295
    ∧ (tagTypeSelector 300 = TagWidth.u16 ↔ 255 < 300 + 1 ∧ 300 + 1 ≤ 65535) :=
  ⟨by decide, (claim_C5_amended 300 (by decide)).2.2.1⟩

/-! ## C4: per-receiver inbox selection -/

/-- Spec side of the refinement for C4, following the claim's wording:
`producer_count(R)` is one if some loop-hosted receiver emits an event in
`receives(R)`, plus the number of thread-hosted receivers whose `emits`
overlap `receives(R)` (including `R` itself), plus the number of external
producers whose `emits` overlap `receives(R)`. -/
def producerCountSpec (r : Decl) (ds : List Decl) : Nat :=
  (if ds.any fun d => isReceiver d && (getThreadMode d == ThreadMode.SameThread)
      && listsOverlap (getEmits d) (getReceives r) then 1 else 0)
  + ds.countP (fun d => isReceiver d && (getThreadMode d == ThreadMode.OwnThread)
      && listsOverlap (getEmits d) (getReceives r))
  + ds.countP (fun d => isExternalEmitter d && listsOverlap (getEmits d) (getReceives r))

/-- Well-formed declaration sets in the sense of the spec's data model:
external producers declare no thread mode. -/
def WellFormedDecls (ds : List Decl) : Prop :=
  ∀ d ∈ ds, isExternalEmitter d = true → d.threadMode = none

/-- An argument passing the non-external/`SameThread`/overlap test of
`has_samethread_producer` is necessarily a receiver: a true overlap forces a
declared non-empty `emits`, and a non-external argument with `emits` has
`receives`. -/
theorem samethread_pred_eq (tgt : List Nat) (d : Decl) :
    (!isExternalEmitter d && (getThreadMode d == ThreadMode.SameThread)
      && listsOverlap (getEmits d) tgt)
    = (isReceiver d && (getThreadMode d == ThreadMode.SameThread)
      && listsOverlap (getEmits d) tgt) := by
  rcases d with ⟨recv, emits, mode⟩
  cases emits with
  | none => simp [isExternalEmitter, isReceiver, getEmits, listsOverlap]
  | some es =>
      cases recv with
      | none => simp [isExternalEmitter, isReceiver]
      | some rs => simp [isExternalEmitter, isReceiver]

/-- Under well-formedness, an `OwnThread`-mode argument with a true overlap is
a thread-hosted receiver (external emitters have no thread mode, hence default
to `SameThread`). -/
theorem ownthread_pred_eq (tgt : List Nat) (d : Decl)
    (hwf : isExternalEmitter d = true → d.threadMode = none) :
    ((getThreadMode d == ThreadMode.OwnThread) && listsOverlap (getEmits d) tgt)
    = (isReceiver d && (getThreadMode d == ThreadMode.OwnThread)
      && listsOverlap (getEmits d) tgt) := by
  rcases d with ⟨recv, emits, mode⟩
  cases emits with
  | none => simp [getEmits, listsOverlap]
  | some es =>
      cases recv with
      | some rs => simp [isReceiver]
      | none =>
          have hmode : mode = none := hwf (by simp [isExternalEmitter])
          subst hmode
          simp [getThreadMode, isReceiver]

/-- Pointwise-equal predicates count the same on a list. -/
theorem countP_congr_mem {α : Type} (l : List α) (p q : α → Bool)
    (h : ∀ a ∈ l, p a = q a) : l.countP p = l.countP q := by
  induction l with
  | nil => rfl
  | cons x xs ih =>
      simp [List.countP_cons, h x (by simp), ih fun a ha => h a (by simp [ha])]

/-- Pointwise-equal predicates agree on `any`. -/
theorem any_congr_mem {α : Type} (l : List α) (p q : α → Bool)
    (h : ∀ a ∈ l, p a = q a) : l.any p = l.any q := by
  induction l with
  | nil => rfl
  | cons x xs ih =>
      simp [List.any_cons, h x (by simp), ih fun a ha => h a (by simp [ha])]

/-- C4.  For every thread-hosted receiver `R` in a well-formed declared set,
the build-time inbox selection yields SPSC exactly when the claim's
`producer_count(R) ≤ 1` and MPSC otherwise, and the claim's
`producer_count(R)` coincides with the code's
`total_producer_count_v<get_receives_t<R>, Receivers...>`. -/
theorem claim_C4 (ds : List Decl) (r : Decl) (_hmem : r ∈ ds)
    (_hmode : getThreadMode r = ThreadMode.OwnThread) (_hrecv : isReceiver r = true)
    (hwf : WellFormedDecls ds) :
    producerCountSpec r ds = totalProducerCount (getReceives r) ds
    ∧ (queueTypeFor r ds = QueueKind.SPSC ↔ producerCountSpec r ds ≤ 1) := by
  have heq : producerCountSpec r ds = totalProducerCount (getReceives r) ds := by
    unfold producerCountSpec totalProducerCount hasSamethreadProducer
      countOwnthreadProducers countExternalProducers
    have h1 : (ds.any fun d => isReceiver d && (getThreadMode d == ThreadMode.SameThread)
          && listsOverlap (getEmits d) (getReceives r))
        = ds.any fun d => !isExternalEmitter d && (getThreadMode d == ThreadMode.SameThread)
          && listsOverlap (getEmits d) (getReceives r) := by
      apply any_congr_mem
      intro d _
      exact (samethread_pred_eq (getReceives r) d).symm
    have h2 : ds.countP (fun d => isReceiver d && (getThreadMode d == ThreadMode.OwnThread)
          && listsOverlap (getEmits d) (getReceives r))
        = ds.countP fun d => (getThreadMode d == ThreadMode.OwnThread)
          && listsOverlap (getEmits d) (getReceives r) := by
      apply countP_congr_mem
      intro d hd
      exact (ownthread_pred_eq (getReceives r) d (hwf d hd)).symm
    rw [h1, h2]
  refine ⟨heq, ?_⟩
  rw [heq]
  unfold queueTypeFor
  by_cases h : totalProducerCount (getReceives r) ds < 2
  · simp [h]
    omega
  · simp [h]
    omega

/-- Witness for C4, the spec's multi-producer scenario: two thread-hosted
producers `PA`, `PB` emitting event `0` and a thread-hosted consumer `CR`
receiving it; the producer count is 2, so the selection is not SPSC. -/
theorem claim_C4_witness :
    (⟨some [0], none, some ThreadMode.OwnThread⟩ : Decl) ∈
        ([⟨some [1], some [0], some ThreadMode.OwnThread⟩,
          ⟨some [2], some [0], some ThreadMode.OwnThread⟩,
          ⟨some [0], none, some ThreadMode.OwnThread⟩] : List Decl)
    ∧ getThreadMode (⟨some [0], none, some ThreadMode.OwnThread⟩ : Decl)
        = ThreadMode.OwnThread
    ∧ isReceiver (⟨some [0], none, some ThreadMode.OwnThread⟩ : Decl) = true
    ∧ WellFormedDecls
        [⟨some [1], some [0], some ThreadMode.OwnThread⟩,
         ⟨some [2], some [0], some ThreadMode.OwnThread⟩,
         ⟨some [0], none, some ThreadMode.OwnThread⟩]
    ∧ producerCountSpec (⟨some [0], none, some ThreadMode.OwnThread⟩ : Decl)
        [⟨some [1], some [0], some ThreadMode.OwnThread⟩,
         ⟨some [2], some [0], some ThreadMode.OwnThread⟩,
         ⟨some [0], none, some ThreadMode.OwnThread⟩] = 2
    ∧ (queueTypeFor (⟨some [0], none, some ThreadMode.OwnThread⟩ : Decl)
        [⟨some [1], some [0], some ThreadMode.OwnThread⟩,
         ⟨some [2], some [0], some ThreadMode.OwnThread⟩,
         ⟨some [0], none, some ThreadMode.OwnThread⟩] = QueueKind.SPSC
      ↔ producerCountSpec (⟨some [0], none, some ThreadMode.OwnThread⟩ : Decl)
        [⟨some [1], some [0], some ThreadMode.OwnThread⟩,
         ⟨some [2], some [0], some ThreadMode.OwnThread⟩,
         ⟨some [0], none, some ThreadMode.OwnThread⟩] ≤ 1) := by
  refine ⟨by decide, by decide, by decide, ?_, by decide, ?_⟩
  · intro d hd
    fin_cases hd <;> decide
  · exact (claim_C4 _ _ (by decide) (by decide) (by decide)
      (by intro d hd; fin_cases hd <;> decide)).2

/-- C7, counterexample.  The claim says the blocking `wait_pop` happens only
when the empty-spin counter *exceeds* `spin_count`, and that for any counter
value not exceeding `spin_count` the poll returns `false` without blocking.
Concrete refutation at `spin_count = 1`, counter `0`, empty mailbox: the very
first empty poll increments the counter to `1` — which does not exceed
`spin_count` — yet the body falls through to the blocking `wait_pop_any`
branch (the code's guard is `empty_spins < spin_count`, so it blocks when the
counter *reaches* `spin_count`). -/
theorem claim_C7_counterexample :
    hybridPollStep true 1 0 (DualQueue.init Ev 2)
        = (HybridStep.waited 0, DualQueue.init Ev 2)
    ∧ 0 + 1 ≤ 1 := by
  decide

/-- C7, amended.  `Hybrid(spin_count)::poll` first does a non-blocking
`try_get_event`; a successful dispatch resets the empty-spin counter to zero;
on null it increments the counter and returns `false` without blocking as
long as the incremented counter is still strictly below `spin_count`; once
the incremented counter reaches `spin_count` (or beyond) it resets the
counter to zero and performs the single blocking `wait_pop_any`. -/
theorem claim_C7_amended {C : Nat} (flag : Bool) (sc es : Nat) (q : DualQueue Ev C) :
    (∀ (e : Ev) (q' : DualQueue Ev C), tryGetEventQ flag q = (some e, q') →
        hybridPollStep flag sc es q = (HybridStep.dispatched e 0, q'))
    ∧ (∀ q' : DualQueue Ev C, tryGetEventQ flag q = (none, q') → es + 1 < sc →
        hybridPollStep flag sc es q = (HybridStep.spinned (es + 1), q'))
    ∧ (∀ q' : DualQueue Ev C, tryGetEventQ flag q = (none, q') → sc ≤ es + 1 →
        hybridPollStep flag sc es q = (HybridStep.waited 0, q')) := by
  refine ⟨?_, ?_, ?_⟩
  · intro e q' h
    simp [hybridPollStep, h]
  · intro q' h hlt
    simp [hybridPollStep, h, hlt]
  · intro q' h hge
    simp [hybridPollStep, h, show ¬ (es + 1 < sc) by omega]

/-- Witness for the amended C7: with `spin_count = 3` and counter `0` an
empty poll is a non-blocking `false` with counter `1`. -/
theorem claim_C7_amended_witness :
    tryGetEventQ true (DualQueue.init Ev 2) = (none, DualQueue.init Ev 2)
    ∧ 0 + 1 < 3
    ∧ hybridPollStep true 3 0 (DualQueue.init Ev 2)
        = (HybridStep.spinned 1, DualQueue.init Ev 2) :=
  ⟨by decide, by decide,
   (claim_C7_amended true 3 0 (DualQueue.init Ev 2)).2.1 _ (by decide) (by decide)⟩

/-! ## C6: fan-out copy/move shape -/

/-- Common shape of the two fan-out folds: deliver `last` at match position
`count`, a copy everywhere else. -/
def deliveryFold (p : Decl → Bool) (last : Delivery) (count disp : Nat) :
    List Decl → List Delivery
  | [] => []
  | d :: rest =>
      if p d then
        (if disp + 1 = count then last else Delivery.copy)
          :: deliveryFold p last count (disp + 1) rest
      else deliveryFold p last count disp rest

/-- The loop-side fold is an instance of the common shape. -/
theorem fanoutFoldAux_eq_deliveryFold (t count disp : Nat) (ds : List Decl) :
    fanoutFoldAux count t disp ds
      = deliveryFold (fun d => isSameThreadConsumer d t) Delivery.move count disp ds := by
  induction ds generalizing disp with
  | nil => rfl
  | cons d rest ih =>
      by_cases hd : isSameThreadConsumer d t <;>
        simp [fanoutFoldAux, deliveryFold, hd, ih]

/-- The push-side fold is an instance of the common shape. -/
theorem pushFoldAux_eq_deliveryFold (t count disp : Nat) (cat : ValueCat)
    (ds : List Decl) :
    pushFoldAux count t cat disp ds
      = deliveryFold (fun d => isOwnThreadConsumer d t) (forwardedDelivery cat)
          count disp ds := by
  induction ds generalizing disp with
  | nil => rfl
  | cons d rest ih =>
      by_cases hd : isOwnThreadConsumer d t <;>
        simp [pushFoldAux, deliveryFold, hd, ih]

/-- With no matching consumer the fold delivers nothing. -/
theorem deliveryFold_no_match (p : Decl → Bool) (last : Delivery)
    (count : Nat) (ds : List Decl) (h : ds.countP p = 0) :
    ∀ disp, deliveryFold p last count disp ds = [] := by
  induction ds with
  | nil => intro disp; rfl
  | cons d rest ih =>
      intro disp
      by_cases hd : p d
      · exfalso
        simp [List.countP_cons, hd] at h
      · have hrest : rest.countP p = 0 := by
          simpa [List.countP_cons, hd] using h
        simp [deliveryFold, hd, ih hrest]

/-- With `k ≥ 1` matching consumers and the counter wired so that the last
match sits at position `count`, the fold delivers `k - 1` copies and then
`last`. -/
theorem deliveryFold_shape (p : Decl → Bool) (last : Delivery) :
    ∀ (ds : List Decl) (count disp : Nat), 0 < ds.countP p →
      disp + ds.countP p = count →
      deliveryFold p last count disp ds
        = List.replicate (ds.countP p - 1) Delivery.copy ++ [last] := by
  intro ds
  induction ds with
  | nil =>
      intro count disp h0 _
      simp at h0
  | cons d rest ih =>
      intro count disp h0 hsum
      by_cases hd : p d
      · have hcnt : (d :: rest).countP p = rest.countP p + 1 := by
          simp [List.countP_cons, hd]
        rw [hcnt] at hsum
        by_cases hrest : rest.countP p = 0
        · have hdisp : disp + 1 = count := by omega
          simp [deliveryFold, hd, hdisp, deliveryFold_no_match p last count rest hrest,
            hcnt, hrest]
        · have hpos : 0 < rest.countP p := Nat.pos_of_ne_zero hrest
          have hne : ¬ (disp + 1 = count) := by omega
          have hrec := ih count (disp + 1) hpos (by omega)
          obtain ⟨m, hm⟩ := Nat.exists_eq_succ_of_ne_zero hrest
          simp [deliveryFold, hd, hne, hrec, hcnt, hm, List.replicate_succ]
      · have hcnt : (d :: rest).countP p = rest.countP p := by
          simp [List.countP_cons, hd]
        rw [hcnt] at hsum ⊢
        have hpos : 0 < rest.countP p := by omega
        simp [deliveryFold, hd, ih count disp hpos hsum]

/-- C6, counterexample.  The claim says that on *every* fan-out the last
consumer receives a move and the payload is move-constructed exactly once
(`k = 1`: a direct move).  Concrete refutation: when the emitting caller
passes an lvalue (`TestEvent e; loop.emit(e);`), `Event` deduces to an lvalue
reference and `std::forward<Event>(event)` in `push_to_own_thread_fold`
delivers an lvalue, so with a single thread-hosted consumer of event `0` the
push fan-out copy-constructs and performs zero move constructions. -/
theorem claim_C6_counterexample :
    countOwnThreadFor [⟨some [0], none, some ThreadMode.OwnThread⟩] 0 = 1
    ∧ pushToOwnThreadFold [⟨some [0], none, some ThreadMode.OwnThread⟩] 0
        ValueCat.lvalue = [Delivery.copy]
    ∧ (pushToOwnThreadFold [⟨some [0], none, some ThreadMode.OwnThread⟩] 0
        ValueCat.lvalue).count Delivery.move = 0 := by
  decide

/-- C6, amended.  On every fan-out of one event to `k ≥ 1` matching consumers
in declaration order: the loop-side fan-out (`dispatch_event` /
`fanout_to_same_thread_fold`) delivers a copy to the first `k - 1` consumers
and an unconditional move to the last (for `k = 1` a direct move through
`dispatch_single_fast`); the push fan-out (`push_to_own_thread_fold`)
delivers a copy to the first `k - 1` consumers and forwards the emit
argument's own value category to the last — a move when the event was
emitted as an rvalue, a copy when it was emitted as an lvalue. -/
theorem claim_C6_amended (ds : List Decl) (t : Nat) (cat : ValueCat) :
    (0 < countSameThreadFor ds t →
      fanoutToSameThreadFold ds t
        = List.replicate (countSameThreadFor ds t - 1) Delivery.copy
            ++ [Delivery.move])
    ∧ (countSameThreadFor ds t = 1 → dispatchEventDeliveries ds t = [Delivery.move])
    ∧ (0 < countOwnThreadFor ds t →
      pushToOwnThreadFold ds t cat
        = List.replicate (countOwnThreadFor ds t - 1) Delivery.copy
            ++ [forwardedDelivery cat])
    ∧ (0 < countOwnThreadFor ds t →
      pushToOwnThreadFold ds t ValueCat.rvalue
        = List.replicate (countOwnThreadFor ds t - 1) Delivery.copy
            ++ [Delivery.move]) := by
  refine ⟨?_, ?_, ?_, ?_⟩
  · intro hk
    rw [fanoutToSameThreadFold, fanoutFoldAux_eq_deliveryFold]
    exact deliveryFold_shape _ _ ds _ 0 hk (by simp [countSameThreadFor])
  · intro hk
    simp [dispatchEventDeliveries, hk]
  · intro hk
    rw [pushToOwnThreadFold, pushFoldAux_eq_deliveryFold]
    exact deliveryFold_shape _ _ ds _ 0 hk (by simp [countOwnThreadFor])
  · intro hk
    rw [pushToOwnThreadFold, pushFoldAux_eq_deliveryFold]
    exact deliveryFold_shape _ _ ds _ 0 hk (by simp [countOwnThreadFor])

/-- Witness for the amended C6: three loop-hosted and two thread-hosted
consumers of event `0`; the loop fan-out is copy-copy-move and the rvalue push
fan-out is copy-move. -/
theorem claim_C6_amended_witness :
    0 < countSameThreadFor
        [⟨some [0], none, none⟩, ⟨some [0], none, none⟩, ⟨some [0], none, none⟩,
         ⟨some [0], none, some ThreadMode.OwnThread⟩,
         ⟨some [0], none, some ThreadMode.OwnThread⟩] 0
    ∧ 0 < countOwnThreadFor
        [⟨some [0], none, none⟩, ⟨some [0], none, none⟩, ⟨some [0], none, none⟩,
         ⟨some [0], none, some ThreadMode.OwnThread⟩,
         ⟨some [0], none, some ThreadMode.OwnThread⟩] 0
    ∧ fanoutToSameThreadFold
        [⟨some [0], none, none⟩, ⟨some [0], none, none⟩, ⟨some [0], none, none⟩,
         ⟨some [0], none, some ThreadMode.OwnThread⟩,
         ⟨some [0], none, some ThreadMode.OwnThread⟩] 0
        = [Delivery.copy, Delivery.copy, Delivery.move]
    ∧ pushToOwnThreadFold
        [⟨some [0], none, none⟩, ⟨some [0], none, none⟩, ⟨some [0], none, none⟩,
         ⟨some [0], none, some ThreadMode.OwnThread⟩,
         ⟨some [0], none, some ThreadMode.OwnThread⟩] 0 ValueCat.rvalue
        = [Delivery.copy, Delivery.move] := by
  refine ⟨by decide, by decide, ?_, ?_⟩
  · rw [(claim_C6_amended
      [⟨some [0], none, none⟩, ⟨some [0], none, none⟩, ⟨some [0], none, none⟩,
       ⟨some [0], none, some ThreadMode.OwnThread⟩,
       ⟨some [0], none, some ThreadMode.OwnThread⟩] 0 ValueCat.rvalue).1 (by decide)]
    decide
  · rw [(claim_C6_amended
      [⟨some [0], none, none⟩, ⟨some [0], none, none⟩, ⟨some [0], none, none⟩,
       ⟨some [0], none, some ThreadMode.OwnThread⟩,
       ⟨some [0], none, some ThreadMode.OwnThread⟩] 0 ValueCat.rvalue).2.2.2 (by decide)]
    decide

/-! ## C1: lost external emissions under `try_get_event` -/

/-- The C1 topology: one loop-hosted receiver consuming event `0`
(`receives = {0}`, default `SameThread` mode) and one external emitter
producing event `0` (`emits = {0}`, no `receives`, no thread mode) — the
spec's external-emitter-to-loop-receiver wiring. -/
def dsC1 : List Decl := [⟨some [0], none, none⟩, ⟨none, some [0], none⟩]

/-- C1 demonstration (code bug).  In the `dsC1` topology the only cross-thread
producer is the external emitter handle, whose `emit` runs
`queue_remote -> queue_event<true> -> push_remote_event` and lands the event
in the mailbox's shared FIFO.  But `has_remote_producers` counts only
`OwnThread`-mode receivers, so it is `false` here, and `try_get_event`
compiles to the local-only `try_pop_local`: after one completed external emit
of event `(0, 42)`, any number of `Spin::poll` iterations leaves the loop
state — shared FIFO still `[(0, 42)]`, zero `on_event` invocations — exactly
unchanged, although one loop-hosted receiver consumes the event, so the claim
expects `1 × 1 = 1` invocation eventually. -/
theorem claim_C1 :
    hasRemoteProducersCode dsC1 = false
    ∧ countSameThreadFor dsC1 0 = 1
    ∧ countOwnThreadFor dsC1 0 = 0
    ∧ (queueEventRemote dsC1 (0, 42) (LoopModel.init 4096)).mailbox.remoteQueue
        = [(0, 42)]
    ∧ (queueEventRemote dsC1 (0, 42) (LoopModel.init 4096)).onEventCount = 0
    ∧ ∀ n : Nat, spinRun dsC1 n (queueEventRemote dsC1 (0, 42) (LoopModel.init 4096))
        = queueEventRemote dsC1 (0, 42) (LoopModel.init 4096) := by
  have hpoll : spinPoll dsC1 (queueEventRemote dsC1 (0, 42) (LoopModel.init 4096))
      = (false, queueEventRemote dsC1 (0, 42) (LoopModel.init 4096)) := rfl
  refine ⟨rfl, rfl, rfl, rfl, rfl, ?_⟩
  intro n
  induction n with
  | zero => rfl
  | succ m ih =>
      show spinRun dsC1 m
        (spinPoll dsC1 (queueEventRemote dsC1 (0, 42) (LoopModel.init 4096))).2
        = queueEventRemote dsC1 (0, 42) (LoopModel.init 4096)
      rw [hpoll]
      exact ih

end EvLoop
